import Mathlib

/-!
Verification of the certificate-and-keychain lifecycle manager of the
install-ios-certificate action.  The TypeScript sources
(src/installcert.ts, src/ios-signing.ts, src/postinstallcert.ts) are
shallowly embedded: every external side effect (process execution,
environment-variable export, file removal, log output) is recorded as an
explicit Effect value, and each fallible operation returns its effect
trace together with an Except-style outcome.  Platform collaborators
(filesystem existence, captured tool output, the JavaScript Date parser,
random password generation) are parameters of explicit world structures.
-/

/-- One observable side effect of the task: an external command execution,
an exported environment variable, a recursive file removal (io.rmRF), a
warning (core.warning), a console log line (console.log), an error log
line (core.error), or a task-failed report (core.setFailed). -/
inductive Effect where
  | execCmd (cmd : String) (args : List String)
  | exportVar (name value : String)
  | rm (path : String)
  | warn (msg : String)
  | logMsg (msg : String)
  | errLog (msg : String)
  | fail (msg : String)
  deriving Repr, DecidableEq

/-- JavaScript String.prototype.indexOf over character lists: the index of
the first occurrence of the needle, or -1 when absent. -/
def jsIndexOf (needle : List Char) : List Char → Int
  | [] => if needle.isEmpty then 0 else -1
  | c :: t =>
    if (c :: t).take needle.length = needle then 0
    else
      let r := jsIndexOf needle t
      if r = -1 then -1 else r + 1

/-- Clamp an index argument of substring into the range 0..len. -/
def clampInt (x len : Int) : Int :=
  if x < 0 then 0 else if len < x then len else x

/-- JavaScript String.prototype.substring: NaN-free integer arguments are
clamped to the range 0..length and swapped when start exceeds end. -/
def jsSubstring (s : String) (a b : Int) : String :=
  String.mk
    ((s.data.drop
        (min (clampInt a (s.length : Int)) (clampInt b (s.length : Int))).toNat).take
      ((max (clampInt a (s.length : Int)) (clampInt b (s.length : Int)) -
        min (clampInt a (s.length : Int)) (clampInt b (s.length : Int))).toNat))

/-- JavaScript whitespace test for trim: space, tab and the four line
terminators handled by the control-character regexes of the source. -/
def isJsSpace (c : Char) : Bool :=
  c = ' ' || c = '\t' || c = '\n' || c = '\r' || c = '\x0b' || c = '\x0c'

/-- JavaScript String.prototype.toLowerCase, over the character list so
that it evaluates inside the kernel. -/
def jsToLower (s : String) : String :=
  String.mk (s.data.map Char.toLower)

/-- JavaScript String.prototype.trim. -/
def jsTrim (s : String) : String :=
  String.mk (((s.data.dropWhile isJsSpace).reverse.dropWhile isJsSpace).reverse)

/-- The splitIntoKeyValue helper of ios-signing.ts: index = line.indexOf
of the equals sign; if (index) is the JavaScript numeric truthiness test,
satisfied by every index other than 0, including -1. -/
def splitIntoKeyValue (line : String) : Option (String × String) :=
  let index : Int := jsIndexOf ['='] line.data
  if index ≠ 0 then
    some (jsSubstring line 0 index, jsSubstring line (index + 1) (line.length : Int))
  else
    none

/-- A JavaScript Date value: either a valid absolute instant in epoch
milliseconds or the Invalid Date produced by an unparsable date string.
Both are objects and hence truthy. -/
inductive JSDate where
  | invalid
  | valid (ms : Int)
  deriving Repr, DecidableEq

/-- JavaScript relational comparison a > b on Date objects: the valueOf of
an Invalid Date is NaN and every comparison involving NaN is false. -/
def jsDateGt : JSDate → JSDate → Bool
  | .valid a, .valid b => a > b
  | _, _ => false

/-- JavaScript relational comparison a < b on Date objects. -/
def jsDateLt : JSDate → JSDate → Bool
  | .valid a, .valid b => a < b
  | _, _ => false

/-- The certificate-date validation of installcert.ts lines 78-85: throw
when either bound is undefined, then throw when notBefore > now or
notAfter < now; the result is the thrown message, if any. -/
def dateCheck (notBefore notAfter : Option JSDate) (nowMs : Int) : Option String :=
  match notBefore, notAfter with
  | none, _ => some "Certificate dates are invalid or undefined."
  | _, none => some "Certificate dates are invalid or undefined."
  | some nb, some na =>
    if jsDateGt nb (.valid nowMs) || jsDateLt na (.valid nowMs) then
      some "Certificate dates are invalid."
    else
      none

/-- Strip every double-quote character, modelling replace of a global
quote regex with the empty string. -/
def stripQuotes (s : String) : String :=
  String.mk (s.data.filter (fun c => c ≠ '"'))

/-- Remove every colon, modelling replace of a global colon regex with
the empty string (fingerprint normalization). -/
def removeColons (s : String) : String :=
  String.mk (s.data.filter (fun c => c ≠ ':'))

/-- Separator class of the split regex used on captured keychain lists:
newline, carriage return, form feed and vertical tab. -/
def isCtlSep (c : Char) : Bool :=
  c = '\n' || c = '\r' || c = '\x0c' || c = '\x0b'

/-- JavaScript String.prototype.split on the control-character class,
keeping empty fragments exactly as the JavaScript split does. -/
def splitCtlAux : List Char → List Char → List String
  | [], acc => [String.mk acc.reverse]
  | c :: t, acc =>
    if isCtlSep c then String.mk acc.reverse :: splitCtlAux t []
    else splitCtlAux t (c :: acc)

/-- Split a captured output string on the control-character class. -/
def splitCtl (s : String) : List String :=
  splitCtlAux s.data []

/-- JavaScript String.prototype.split on the newline character, keeping
empty fragments, over the character list so that it evaluates inside the
kernel. -/
def splitNlAux : List Char → List Char → List String
  | [], acc => [String.mk acc.reverse]
  | c :: t, acc =>
    if c = '\n' then String.mk acc.reverse :: splitNlAux t []
    else splitNlAux t (c :: acc)

/-- Split a captured output string on newlines. -/
def splitNl (s : String) : List String :=
  splitNlAux s.data []

/-- First match of the CN regex of getP12Properties on a subject string:
scan for the literal slash-CN-equals, require at least one following
character other than a slash (the regex engine resumes scanning at the
next position when the one-or-more capture cannot start), and capture up
to the next slash. -/
def findCNCapture : List Char → Option (List Char)
  | [] => none
  | c :: t =>
    if (c :: t).take 4 = '/' :: 'C' :: 'N' :: '=' :: [] then
      let cap := (t.drop 3).takeWhile (fun d => d ≠ '/')
      if cap ≠ [] then some cap else findCNCapture t
    else findCNCapture t

/-- JavaScript string truthiness of a possibly-undefined string: falsy
when undefined or empty. -/
def jsFalsyOpt : Option String → Bool
  | none => true
  | some s => s = ""

/-- The unwrap used after a truthiness check has ruled out undefined. -/
def optStr (o : Option String) : String :=
  o.getD ""

/-- The record returned by getP12Properties: fields stay undefined when
the corresponding output line never occurs. -/
structure P12Props where
  fingerprint : Option String := none
  commonName : Option String := none
  notBefore : Option JSDate := none
  notAfter : Option JSDate := none
  deriving Repr, DecidableEq

/-- External collaborators of getP12Properties: outcome of the two
openssl invocations, the captured x509 stdout, and the platform Date
constructor used on the date texts (an oracle for new Date). -/
structure P12World where
  pkcs12Fails : Bool
  pkcs12ErrMsg : String
  x509Fails : Bool
  x509ErrMsg : String
  x509Output : String
  parseDate : String → JSDate

/-- The onLine handler of getP12Properties: split the line at its first
equals sign and record fingerprint (colons removed, trimmed), common name
(first CN capture, trimmed), or a parsed validity bound. -/
def processLine (parse : String → JSDate) (props : P12Props) (line : String) : P12Props :=
  if line = "" then props
  else
    let kv := match splitIntoKeyValue line with
      | some t => t
      | none => ("", "")
    if kv.1 = "SHA1 Fingerprint" then
      { props with fingerprint := some (jsTrim (removeColons kv.2)) }
    else if kv.1 = "subject" then
      match findCNCapture kv.2.data with
      | some cap => { props with commonName := some (jsTrim (String.mk cap)) }
      | none => props
    else if kv.1 = "notBefore" then
      { props with notBefore := some (parse kv.2) }
    else if kv.1 = "notAfter" then
      { props with notAfter := some (parse kv.2) }
    else props

/-- getP12Properties of ios-signing.ts: default a missing password to the
empty string, run openssl pkcs12 into a scratch file, run openssl x509
capturing stdout, fold the onLine handler over the output lines; when the
x509 step fails with an empty password, warn NoP12PwdWarning before
rethrowing the tool error. -/
def getP12Properties (w : P12World) (p12Path p12Pwd : String) :
    List Effect × Except String P12Props :=
  let pwd := if p12Pwd = "" then "" else p12Pwd
  let eff1 : List Effect :=
    [.execCmd "openssl"
      ["pkcs12", "-in", p12Path, "-out", "/tmp/step1.openssl", "-nokeys",
       "-passin", "pass:" ++ pwd]]
  if w.pkcs12Fails then (eff1, .error w.pkcs12ErrMsg)
  else
    let eff2 := eff1 ++
      [.execCmd "openssl"
        ["x509", "-in", "/tmp/step1.openssl", "-noout", "-fingerprint",
         "-subject", "-dates"]]
    if w.x509Fails then
      if pwd = "" then (eff2 ++ [.warn "NoP12PwdWarning"], .error w.x509ErrMsg)
      else (eff2, .error w.x509ErrMsg)
    else
      ((eff2 : List Effect),
       .ok ((splitNl w.x509Output).foldl (processLine w.parseDate) {}))

/-- External collaborators of the keychain manager: filesystem existence,
captured stdout of the two list-keychain calls (the empty string models
both an undefined and an empty capture, which the source treats alike),
the trimmed friendlyName match of the grep step (none when no match), the
generated random password, and the outcome of set-key-partition-list
together with its captured diagnostic lines. -/
structure KeychainWorld where
  fsExists : String → Bool
  listAllOutput : String
  listVerifyOutput : String
  privateKeyName : Option String
  randomPwd : String
  setKeyFails : Bool
  setKeyErrLines : List String
  setKeyErrMsg : String

/-- deleteKeychain of ios-signing.ts: invoke the platform delete only
when the keychain file exists; otherwise do nothing. -/
def deleteKeychain (fs : String → Bool) (keychainPath : String) : List Effect :=
  if fs keychainPath then
    [.execCmd "security" ["delete-keychain", keychainPath]]
  else
    []

/-- getP12PrivateKeyName of ios-signing.ts: re-encrypt the private key to
a scratch file (generating a password when the supplied one is empty),
grep for friendlyName, and fail when no name was captured. -/
def getP12PrivateKeyName (w : KeychainWorld) (p12Path p12Pwd : String) :
    List Effect × Except String String :=
  let pwd := if p12Pwd = "" then "" else p12Pwd
  let privateKeyPassword := if pwd = "" then w.randomPwd else pwd
  let eff : List Effect :=
    [.execCmd "openssl"
      ["pkcs12", "-in", p12Path, "-out", "/tmp/p12privkeyname.tmp", "-nocerts",
       "-passin", "pass:" ++ pwd, "-passout", "pass:" ++ privateKeyPassword],
     .execCmd "grep" ["friendlyName", "/tmp/p12privkeyname.tmp"]]
  (eff,
   match w.privateKeyName with
   | some n =>
     if n = "" then .error ("P12PrivateKeyNameNotFound: " ++ p12Path)
     else .ok n
   | none => .error ("P12PrivateKeyNameNotFound: " ++ p12Path))

/-- Argument list of the set-key-partition-list invocation. -/
def setKeyArgs (privateKeyName keychainPwd keychainPath : String) : List String :=
  ["set-key-partition-list", "-S", "apple-tool:,apple:", "-s", "-l",
   privateKeyName, "-k", keychainPwd, keychainPath]

/-- Whether any captured diagnostic line includes the unknown-command
text watched for by setKeyPartitionList. -/
def unknownCommandFound (lines : List String) : Bool :=
  lines.any (fun l => jsIndexOf "security: unknown command".data l.data ≠ -1)

/-- setKeyPartitionList of ios-signing.ts: when the private-key name is
truthy, run the grant; a failure whose diagnostics include the
unknown-command text is logged and swallowed, any other failure is
escalated as SetKeyPartitionListCommandFailed. -/
def setKeyPartitionList (w : KeychainWorld) (keychainPath keychainPwd privateKeyName : String) :
    List Effect × Except String Unit :=
  if privateKeyName ≠ "" then
    let cmd : Effect := .execCmd "security" (setKeyArgs privateKeyName keychainPwd keychainPath)
    if w.setKeyFails then
      if unknownCommandFound w.setKeyErrLines then
        ([cmd, .logMsg "SetKeyPartitionListCommandNotFound"], .ok ())
      else
        ([cmd, .errLog w.setKeyErrMsg], .error "SetKeyPartitionListCommandFailed")
    else
      ([cmd], .ok ())
  else
    ([], .ok ())

/-- Argument list of the security import invocation, taking the already
defaulted P12 password. -/
def importArgs (p12CertPath p12Pwd keychainPath : String) : List String :=
  ["import", p12CertPath, "-P", p12Pwd, "-A", "-t", "cert", "-f", "pkcs12",
   "-k", keychainPath]

/-- Keychain provisioning prefix of installCertInTemporaryKeychain, lines
17-37 of ios-signing.ts: when the keychain is not being reused, delete it
if it exists, create it with the unlock password and fix the auto-lock
timeout at 21600 seconds; in every case unlock it. -/
def ensurePhase (w : KeychainWorld) (keychainPath keychainPwd : String)
    (useKeychainIfExists : Bool) : List Effect :=
  let setupKeychain := !(useKeychainIfExists && w.fsExists keychainPath)
  (if setupKeychain then
    deleteKeychain w.fsExists keychainPath ++
    [.execCmd "security" ["create-keychain", "-p", keychainPwd, keychainPath],
     .execCmd "security" ["set-keychain-settings", "-lut", "21600", keychainPath]]
  else []) ++
  [.execCmd "security" ["unlock-keychain", "-p", keychainPwd, keychainPath]]

/-- Search-path registration of installCertInTemporaryKeychain, lines
54-105: list the user keychains, and when the captured output is truthy
and does not contain the keychain path, re-set the search path passing
the new path first followed by each existing entry trimmed and stripped
of quotes; list again and fail with TempKeychainSetupFailed when the
verification output is falsy or still lacks the path. -/
def searchPathPhase (w : KeychainWorld) (keychainPath : String) :
    List Effect × Except String Unit :=
  let listCmd : Effect := .execCmd "security" ["list-keychain", "-d", "user"]
  let allKeychainsArr : List String :=
    if w.listAllOutput ≠ "" then splitCtl w.listAllOutput else []
  let addEff : List Effect :=
    if w.listAllOutput ≠ "" ∧ jsIndexOf keychainPath.data w.listAllOutput.data < 0 then
      [.execCmd "security"
        (["list-keychain", "-d", "user", "-s", keychainPath] ++
         allKeychainsArr.map (fun s => stripQuotes (jsTrim s)))]
    else []
  let eff := listCmd :: addEff ++ [listCmd]
  if w.listVerifyOutput = "" ∨ jsIndexOf keychainPath.data w.listVerifyOutput.data < 0 then
    (eff, .error "TempKeychainSetupFailed")
  else
    (eff, .ok ())

/-- installCertInTemporaryKeychain of ios-signing.ts: provision and
unlock the keychain, import the P12 bundle with an explicitly defaulted
password, grant the key partition list only when the keychain was reused,
then register the keychain in the user search path and verify it. -/
def installCertInTemporaryKeychain (w : KeychainWorld)
    (keychainPath keychainPwd p12CertPath p12Pwd : String)
    (useKeychainIfExists : Bool) : List Effect × Except String Unit :=
  let setupKeychain := !(useKeychainIfExists && w.fsExists keychainPath)
  let pwd := if p12Pwd = "" then "" else p12Pwd
  let base := ensurePhase w keychainPath keychainPwd useKeychainIfExists ++
    [.execCmd "security" (importArgs p12CertPath pwd keychainPath)]
  if !setupKeychain then
    match getP12PrivateKeyName w p12CertPath pwd with
    | (keyEff, .error e) => (base ++ keyEff, .error e)
    | (keyEff, .ok name) =>
      match setKeyPartitionList w keychainPath keychainPwd name with
      | (grantEff, .error e) => (base ++ keyEff ++ grantEff, .error e)
      | (grantEff, .ok _) =>
        let sp := searchPathPhase w keychainPath
        (base ++ keyEff ++ grantEff ++ sp.1, sp.2)
  else
    let sp := searchPathPhase w keychainPath
    (base ++ sp.1, sp.2)

/-- getTempKeychainPath of ios-signing.ts. -/
def getTempKeychainPath : String :=
  "/tmp/ios_signing_temp.keychain"

/-- getDefaultKeychainPath of ios-signing.ts: run security
default-keychain; when stdout arrives, trim it, strip quotes, commas and
control characters, and fail when the resulting path does not exist. -/
def getDefaultKeychainPath (fs : String → Bool) (capturedOut : String) :
    List Effect × Except String String :=
  let eff : List Effect := [.execCmd "security" ["default-keychain"]]
  if capturedOut = "" then (eff, .ok "")
  else
    let p := String.mk ((jsTrim capturedOut).data.filter
      (fun c => ¬(c = '"' || c = ',' || c = '\n' || c = '\r' || c = '\x0c' || c = '\x0b')))
    if fs p then (eff, .ok p) else (eff, .error "Received invalid default keychain path.")

/-- External inputs and collaborators of installSigningCertTask: host
platform, the configuration inputs, the writeFile and base64 outcomes,
the world of getP12Properties, the current time, the generated random
keychain password, the captured default-keychain stdout, and the world of
the keychain manager. -/
structure InstallWorld where
  platformDarwin : Bool
  encodedCert : String
  keychainInput : String
  keychainPwdInput : String
  certPwd : String
  commonNameOverride : String
  customKeychainPath : String
  writeFileErr : Bool
  base64Fails : Bool
  base64ErrMsg : String
  p12 : P12World
  nowMs : Int
  randomPwd : String
  defaultKeychainOutput : String
  kw : KeychainWorld

/-- Keychain-mode resolution of installcert.ts lines 88-102: temp mode
uses the fixed scratch path and a freshly generated password which is
exported; default mode queries the platform default keychain and keeps
the caller password; custom mode requires the caller-supplied path; any
other mode is fatal. -/
def resolveKeychain (w : InstallWorld) : List Effect × Except String (String × String) :=
  if w.keychainInput = "temp" then
    ([.exportVar "keychainPassword" w.randomPwd], .ok (getTempKeychainPath, w.randomPwd))
  else if w.keychainInput = "default" then
    match getDefaultKeychainPath w.kw.fsExists w.defaultKeychainOutput with
    | (eff, .ok p) => (eff, .ok (p, w.keychainPwdInput))
    | (eff, .error e) => (eff, .error e)
  else if w.keychainInput = "custom" then
    if w.customKeychainPath = "" then
      ([], .error "Input required and not supplied: customKeychainPath")
    else
      ([], .ok (w.customKeychainPath, w.keychainPwdInput))
  else
    ([], .error "Unable to set location for keychain.")

/-- Body of the fs.writeFile callback of installcert.ts lines 48-119: on
a write error only log; otherwise decode the BASE64 file, remove it,
query the P12 properties, apply the common-name override, validate
fingerprint and common name, export the fingerprint and identity,
validate the certificate dates, resolve and export the keychain, install
the certificate, export the remaining variables and remove both scratch
files.  The second component is the error escaping the callback, which
nothing catches (the outer try only wraps the callback registration). -/
def installCallback (w : InstallWorld) : List Effect × Option String :=
  if w.writeFileErr then
    ([.errLog "could not write base64 signing cert file to /tmp"], none)
  else
    let e0 : List Effect :=
      [.execCmd "base64" ["-d", "-i", "/tmp/cert.base64", "-o", "/tmp/cert.p12"]]
    if w.base64Fails then (e0, some w.base64ErrMsg)
    else
      let e1 := e0 ++ [.rm "/tmp/cert.base64"]
      match getP12Properties w.p12 "/tmp/cert.p12" w.certPwd with
      | (pEff, .error err) => (e1 ++ pEff, some err)
      | (pEff, .ok props) =>
        let e2 := e1 ++ pEff
        let commonName : Option String :=
          if w.commonNameOverride ≠ "" then some w.commonNameOverride else props.commonName
        if jsFalsyOpt props.fingerprint || jsFalsyOpt commonName then
          (e2, some "INVALID_P12")
        else
          let e3 := e2 ++
            [.exportVar "APPLE_CERTIFICATE_SHA1HASH" (optStr props.fingerprint),
             .exportVar "signingIdentity" (optStr commonName)]
          match dateCheck props.notBefore props.notAfter w.nowMs with
          | some derr => (e3, some derr)
          | none =>
            match resolveKeychain w with
            | (kEff, .error e) => (e3 ++ kEff, some e)
            | (kEff, .ok kc) =>
              let e4 := e3 ++ kEff ++ [.exportVar "APPLE_CERTIFICATE_KEYCHAIN" kc.1]
              match installCertInTemporaryKeychain w.kw kc.1 kc.2 "/tmp/cert.p12" w.certPwd true with
              | (iEff, .error e) => (e4 ++ iEff, some e)
              | (iEff, .ok _) =>
                (e4 ++ iEff ++
                  [.exportVar "keychainPath" kc.1,
                   .exportVar "APPLE_CERTIFICATE_SIGNING_IDENTITY" (optStr commonName),
                   .exportVar "APPLE_CERTIFICATE_KEYCHAIN" kc.1,
                   .rm "/tmp/cert.base64", .rm "/tmp/cert.p12"], none)

/-- installSigningCertTask of installcert.ts: fail on a non-macOS host,
on a missing required input; with a truthy encoded certificate run the
writeFile callback (whose error, if any, escapes unhandled, since the
try-catch wraps only the registration and the finally block is empty);
with a falsy encoded certificate log an error and mark the task failed.
The second component is the error left unhandled by the run. -/
def installSigningCertTask (w : InstallWorld) : List Effect × Option String :=
  if !w.platformDarwin then ([], some "InstallRequiresMac")
  else if w.keychainInput = "" then
    ([], some "Input required and not supplied: keychain")
  else if w.certPwd = "" then
    ([], some "Input required and not supplied: certificate-password")
  else if w.encodedCert ≠ "" then installCallback w
  else
    ([.errLog "Secret containing BASE64 of P12 cert not valid, or contents invalid.",
      .fail "Contents of P12 invalid."], none)

/-- The teardown run of postinstallcert.ts: on a non-macOS host only log;
otherwise read the removeProfile input, and only when it trims and
lowercases to the word true, read the recorded keychain path from the
environment and, when truthy, delete that keychain.  No provisioning
profile is ever deleted. -/
def postinstallRun (platformDarwin : Bool) (removeProfileInput : String)
    (keychainEnv : Option String) (fs : String → Bool) : List Effect :=
  if !platformDarwin then [.logMsg "InstallRequiresMac"]
  else
    let removeProfile := jsToLower (jsTrim removeProfileInput) = "true"
    if removeProfile then
      match keychainEnv with
      | some kp => if kp ≠ "" then deleteKeychain fs kp else []
      | none => []
    else []

theorem clampInt_of_nonneg_le {x len : Int} (h1 : 0 ≤ x) (h2 : x ≤ len) :
    clampInt x len = x := by
  unfold clampInt
  split_ifs <;> omega

theorem clampInt_of_neg {x len : Int} (h : x < 0) :
    clampInt x len = 0 := by
  unfold clampInt
  split_ifs
  rfl

theorem string_mk_data (s : String) : String.mk s.data = s := by
  cases s
  rfl

theorem jsIndexOf_of_not_mem (l : List Char) (h : '=' ∉ l) :
    jsIndexOf ['='] l = -1 := by
  induction l with
  | nil => simp [jsIndexOf]
  | cons c t ih =>
    simp only [List.mem_cons, not_or] at h
    have hc : ¬c = '=' := fun hh => h.1 hh.symm
    simp [jsIndexOf, List.take, hc, ih h.2]

theorem jsIndexOf_first (pre post : List Char) (h : '=' ∉ pre) :
    jsIndexOf ['='] (pre ++ '=' :: post) = (pre.length : Int) := by
  induction pre with
  | nil => simp [jsIndexOf]
  | cons c t ih =>
    simp only [List.mem_cons, not_or] at h
    have hc : ¬c = '=' := fun hh => h.1 hh.symm
    have hne : ¬((t.length : Int) = -1) := by omega
    simp [jsIndexOf, List.take, hc, ih h.2, hne]

theorem jsSubstring_zero_neg (s : String) : jsSubstring s 0 (-1) = "" := by
  unfold jsSubstring
  have h0 : (0:Int) ≤ (s.length : Int) := Int.ofNat_nonneg _
  rw [clampInt_of_nonneg_le le_rfl h0, clampInt_of_neg (by omega)]
  simp

theorem jsSubstring_zero_len (s : String) : jsSubstring s 0 (s.length : Int) = s := by
  unfold jsSubstring
  have h0 : (0:Int) ≤ (s.length : Int) := Int.ofNat_nonneg _
  rw [clampInt_of_nonneg_le le_rfl h0, clampInt_of_nonneg_le h0 le_rfl,
    show min (0:Int) (s.length:Int) = 0 by omega,
    show max (0:Int) (s.length:Int) = (s.length:Int) by omega]
  simp only [Int.sub_zero, Int.toNat_zero, List.drop_zero, Int.toNat_ofNat]
  rw [show s.length = s.data.length from rfl, List.take_length]
theorem jsSubstring_take (s : String) (n : Nat) (h : n ≤ s.data.length) :
    jsSubstring s 0 (n : Int) = String.mk (s.data.take n) := by
  unfold jsSubstring
  have h0 : (0:Int) ≤ (s.length : Int) := Int.ofNat_nonneg _
  have hn : (n : Int) ≤ (s.length : Int) := by
    rw [show s.length = s.data.length from rfl]
    exact_mod_cast h
  rw [clampInt_of_nonneg_le le_rfl h0, clampInt_of_nonneg_le (Int.ofNat_nonneg _) hn,
    show min (0:Int) (n:Int) = 0 by omega,
    show max (0:Int) (n:Int) = (n:Int) by omega]
  simp only [Int.sub_zero, Int.toNat_zero, List.drop_zero, Int.toNat_ofNat]

theorem jsSubstring_drop (s : String) (n : Nat) (h : n ≤ s.data.length) :
    jsSubstring s (n : Int) (s.length : Int) = String.mk (s.data.drop n) := by
  unfold jsSubstring
  have h0 : (0:Int) ≤ (s.length : Int) := Int.ofNat_nonneg _
  have hn : (n : Int) ≤ (s.length : Int) := by
    rw [show s.length = s.data.length from rfl]
    exact_mod_cast h
  rw [clampInt_of_nonneg_le (Int.ofNat_nonneg _) hn, clampInt_of_nonneg_le h0 le_rfl,
    show min (n:Int) (s.length:Int) = (n:Int) by omega,
    show max (n:Int) (s.length:Int) = (s.length:Int) by omega,
    show ((s.length : Int) - (n:Int)).toNat = s.length - n by omega,
    Int.toNat_ofNat]
  congr 1
  apply List.take_of_length_le
  rw [List.length_drop, show s.length = s.data.length from rfl]

/-- C10: on a line without an equals sign, splitIntoKeyValue returns the
pair of the empty key and the whole line (indexOf gives -1, which the
numeric truthiness check accepts); on a line whose first character is the
equals sign it returns nothing (index 0 is falsy); and on a line whose
first equals sign sits at a positive index it splits there. -/
theorem C10_split_semantics (line : String) :
    ('=' ∉ line.data → splitIntoKeyValue line = some ("", line)) ∧
    (∀ rest : List Char, line.data = '=' :: rest → splitIntoKeyValue line = none) ∧
    (∀ pre post : List Char, line.data = pre ++ '=' :: post → pre ≠ [] → '=' ∉ pre →
      splitIntoKeyValue line = some (String.mk pre, String.mk post)) := by
  refine ⟨?_, ?_, ?_⟩
  · intro h
    unfold splitIntoKeyValue
    rw [jsIndexOf_of_not_mem _ h]
    norm_num
    exact ⟨jsSubstring_zero_neg line, jsSubstring_zero_len line⟩
  · intro rest h
    unfold splitIntoKeyValue
    rw [h]
    simp [jsIndexOf, List.take]
  · intro pre post h hne hnm
    unfold splitIntoKeyValue
    rw [h, jsIndexOf_first pre post hnm]
    have hlen : (pre.length : Int) ≠ 0 := by
      have : pre.length ≠ 0 := fun hh => hne (List.eq_nil_of_length_eq_zero hh)
      exact_mod_cast this
    simp only [hlen, ne_eq, not_false_iff, if_true]
    have hdata : line.data.length = pre.length + 1 + post.length := by
      rw [h]
      simp
      omega
    have h1 : pre.length ≤ line.data.length := by omega
    have h2 : pre.length + 1 ≤ line.data.length := by omega
    rw [jsSubstring_take line pre.length h1,
      show (pre.length : Int) + 1 = ((pre.length + 1 : Nat) : Int) by push_cast ; ring,
      jsSubstring_drop line (pre.length + 1) h2, h]
    congr 2
    · rw [List.take_append_eq_append_take]
      simp
    · rw [show pre ++ '=' :: post = (pre ++ ['=']) ++ post by simp,
        show pre.length + 1 = (pre ++ ['=']).length by simp,
        List.drop_left]

/-- Witness for C10 at three concrete lines. -/
theorem C10_split_witness :
    splitIntoKeyValue "abc" = some ("", "abc") ∧
    splitIntoKeyValue "=post" = none ∧
    splitIntoKeyValue "subject=/CN=x" = some ("subject", "/CN=x") :=
  ⟨(C10_split_semantics "abc").1 (by decide),
   (C10_split_semantics "=post").2.1 "post".data (by rfl),
   (C10_split_semantics "subject=/CN=x").2.2 "subject".data "/CN=x".data
     (by rfl) (by decide) (by decide)⟩

/-- C9: deleting a keychain whose file does not exist performs nothing at
all (idempotent, error-free), while an existing keychain is deleted via
the platform tool. -/
theorem C9_delete_idempotent (fs : String → Bool) (kp : String) :
    (fs kp = false → deleteKeychain fs kp = []) ∧
    (fs kp = true → deleteKeychain fs kp =
      [Effect.execCmd "security" ["delete-keychain", kp]]) := by
  unfold deleteKeychain
  constructor <;> intro h <;> simp [h]

/-- Witness for C9 on a missing and on an existing keychain. -/
theorem C9_delete_witness :
    ((fun _ => false) "/tmp/k.keychain" = false ∧
      deleteKeychain (fun _ => false) "/tmp/k.keychain" = []) ∧
    ((fun _ => true) "/tmp/k.keychain" = true ∧
      deleteKeychain (fun _ => true) "/tmp/k.keychain" =
        [Effect.execCmd "security" ["delete-keychain", "/tmp/k.keychain"]]) :=
  ⟨⟨rfl, (C9_delete_idempotent (fun _ => false) "/tmp/k.keychain").1 rfl⟩,
   ⟨rfl, (C9_delete_idempotent (fun _ => true) "/tmp/k.keychain").2 rfl⟩⟩

/-- C1: the teardown of postinstallcert.ts, on macOS with a recorded and
existing keychain path, performs no deletion at all when the
removeProfile input is unset, and deletes the keychain (and nothing else)
exactly when that input is the word true; no provisioning-profile
deletion exists on either path. -/
theorem C1_teardown_requires_flag :
    postinstallRun true "" (some getTempKeychainPath) (fun _ => true) = [] ∧
    postinstallRun true "true" (some getTempKeychainPath) (fun _ => true) =
      [Effect.execCmd "security" ["delete-keychain", getTempKeychainPath]] := by
  constructor <;> decide

/-- C6: with reuse requested and an existing keychain the provisioning
step only unlocks; otherwise it deletes the keychain if it exists,
creates it with the unlock password, sets the auto-lock timeout to 21600
seconds and unlocks; and on a non-existent keychain path the whole
install behaves identically for both values of the reuse flag. -/
theorem C6_ensure_semantics (w : KeychainWorld) (kp kpwd p12 ppwd : String) (reuse : Bool) :
    (reuse = true → w.fsExists kp = true → ensurePhase w kp kpwd reuse =
      [Effect.execCmd "security" ["unlock-keychain", "-p", kpwd, kp]]) ∧
    ((reuse && w.fsExists kp) = false → ensurePhase w kp kpwd reuse =
      deleteKeychain w.fsExists kp ++
      [Effect.execCmd "security" ["create-keychain", "-p", kpwd, kp],
       Effect.execCmd "security" ["set-keychain-settings", "-lut", "21600", kp],
       Effect.execCmd "security" ["unlock-keychain", "-p", kpwd, kp]]) ∧
    (w.fsExists kp = false →
      installCertInTemporaryKeychain w kp kpwd p12 ppwd true =
      installCertInTemporaryKeychain w kp kpwd p12 ppwd false) := by
  refine ⟨?_, ?_, ?_⟩
  · intro h1 h2
    simp [ensurePhase, h1, h2]
  · intro h
    simp [ensurePhase, h]
  · intro h
    simp [installCertInTemporaryKeychain, ensurePhase, h]

/-- Keychain world whose keychain file exists, for the C6 witness. -/
def kw6a : KeychainWorld :=
  { fsExists := fun _ => true, listAllOutput := "", listVerifyOutput := "",
    privateKeyName := some "key", randomPwd := "r", setKeyFails := false,
    setKeyErrLines := [], setKeyErrMsg := "" }

/-- Keychain world whose keychain file does not exist, for the C6 witness. -/
def kw6b : KeychainWorld :=
  { kw6a with fsExists := fun _ => false }

/-- Witness for C6 on concrete worlds. -/
theorem C6_ensure_witness :
    ensurePhase kw6a "/kc" "pw" true =
      [Effect.execCmd "security" ["unlock-keychain", "-p", "pw", "/kc"]] ∧
    ensurePhase kw6b "/kc" "pw" false =
      [Effect.execCmd "security" ["create-keychain", "-p", "pw", "/kc"],
       Effect.execCmd "security" ["set-keychain-settings", "-lut", "21600", "/kc"],
       Effect.execCmd "security" ["unlock-keychain", "-p", "pw", "/kc"]] ∧
    installCertInTemporaryKeychain kw6b "/kc" "pw" "/p12" "cp" true =
      installCertInTemporaryKeychain kw6b "/kc" "pw" "/p12" "cp" false :=
  ⟨(C6_ensure_semantics kw6a "/kc" "pw" "/p12" "cp" true).1 rfl rfl,
   (C6_ensure_semantics kw6b "/kc" "pw" "/p12" "cp" false).2.1 rfl,
   (C6_ensure_semantics kw6b "/kc" "pw" "/p12" "cp" true).2.2 rfl⟩

/-- Keychain world for the C4 scenario: one existing search-path entry
and a keychain path that is not yet listed. -/
def kw4 : KeychainWorld :=
  { fsExists := fun _ => true,
    listAllOutput := "\"/Users/runner/login.keychain\"",
    listVerifyOutput := "/tmp/ios_signing_temp.keychain",
    privateKeyName := none, randomPwd := "r", setKeyFails := false,
    setKeyErrLines := [], setKeyErrMsg := "" }

/-- Counterexample to C4: with one existing entry and a not-yet-listed
keychain path, the issued re-set command places the new path first,
before the existing entry; the command predicted by the claim, with the
new path appended last, never occurs in the trace. -/
theorem C4_counterexample :
    (searchPathPhase kw4 "/tmp/ios_signing_temp.keychain").1 =
      [Effect.execCmd "security" ["list-keychain", "-d", "user"],
       Effect.execCmd "security" ["list-keychain", "-d", "user", "-s",
         "/tmp/ios_signing_temp.keychain", "/Users/runner/login.keychain"],
       Effect.execCmd "security" ["list-keychain", "-d", "user"]] ∧
    Effect.execCmd "security" ["list-keychain", "-d", "user", "-s",
      "/Users/runner/login.keychain", "/tmp/ios_signing_temp.keychain"] ∉
      (searchPathPhase kw4 "/tmp/ios_signing_temp.keychain").1 := by
  constructor
  · decide
  · decide

/-- C4 as amended: when the captured search list is truthy and does not
contain the keychain path, the re-set command receives the new keychain
path first, followed by the existing entries in their original order,
each trimmed and stripped of quotes. -/
theorem C4_search_path_order (w : KeychainWorld) (kp : String)
    (h1 : w.listAllOutput ≠ "")
    (h2 : jsIndexOf kp.data w.listAllOutput.data < 0) :
    (searchPathPhase w kp).1 =
      [Effect.execCmd "security" ["list-keychain", "-d", "user"],
       Effect.execCmd "security"
         (["list-keychain", "-d", "user", "-s", kp] ++
          (splitCtl w.listAllOutput).map (fun s => stripQuotes (jsTrim s))),
       Effect.execCmd "security" ["list-keychain", "-d", "user"]] := by
  unfold searchPathPhase
  simp [h1, h2]
  split <;> rfl

/-- Witness for C4 at the concrete world. -/
theorem C4_search_path_witness :
    kw4.listAllOutput ≠ "" ∧
    jsIndexOf "/tmp/ios_signing_temp.keychain".data kw4.listAllOutput.data < 0 ∧
    (searchPathPhase kw4 "/tmp/ios_signing_temp.keychain").1 =
      [Effect.execCmd "security" ["list-keychain", "-d", "user"],
       Effect.execCmd "security"
         (["list-keychain", "-d", "user", "-s", "/tmp/ios_signing_temp.keychain"] ++
          (splitCtl kw4.listAllOutput).map (fun s => stripQuotes (jsTrim s))),
       Effect.execCmd "security" ["list-keychain", "-d", "user"]] :=
  ⟨by decide, by decide,
   C4_search_path_order kw4 "/tmp/ios_signing_temp.keychain" (by decide) (by decide)⟩

/-- The set-key-partition-list command effect is always recorded when the
grant runs with a truthy private-key name. -/
theorem setKey_cmd_mem (w : KeychainWorld) (kp kpwd n : String) (hne : n ≠ "") :
    Effect.execCmd "security" (setKeyArgs n kpwd kp) ∈ (setKeyPartitionList w kp kpwd n).1 := by
  simp only [setKeyPartitionList, hne]
  split_ifs <;> simp [hne]

/-- C8: given a successful private-key-name lookup, the partition-list
grant command appears in the install trace exactly when the keychain was
reused rather than freshly created; a grant failure whose diagnostics
include the unknown-command text is swallowed after a log line, and any
other grant failure escalates as SetKeyPartitionListCommandFailed. -/
theorem C8_partition_grant (w : KeychainWorld) (kp kpwd p12 ppwd n : String) (reuse : Bool)
    (hn : w.privateKeyName = some n) (hne : n ≠ "") :
    (Effect.execCmd "security" (setKeyArgs n kpwd kp) ∈
        (installCertInTemporaryKeychain w kp kpwd p12 ppwd reuse).1 ↔
      (reuse && w.fsExists kp) = true) ∧
    (w.setKeyFails = true → unknownCommandFound w.setKeyErrLines = true →
      (setKeyPartitionList w kp kpwd n).2 = Except.ok () ∧
      Effect.logMsg "SetKeyPartitionListCommandNotFound" ∈ (setKeyPartitionList w kp kpwd n).1) ∧
    (w.setKeyFails = true → unknownCommandFound w.setKeyErrLines = false →
      (setKeyPartitionList w kp kpwd n).2 = Except.error "SetKeyPartitionListCommandFailed") := by
  refine ⟨?_, ?_, ?_⟩
  · cases hr : (reuse && w.fsExists kp) with
    | false =>
      simp only [installCertInTemporaryKeychain, hr]
      simp [ensurePhase, hr, deleteKeychain, searchPathPhase, setKeyArgs, importArgs]
      split <;> split <;> simp_all
    | true =>
      simp only [installCertInTemporaryKeychain, hr]
      simp only [getP12PrivateKeyName, hn]
      rcases hsk : setKeyPartitionList w kp kpwd n with ⟨ge, res⟩
      have hmem : Effect.execCmd "security" (setKeyArgs n kpwd kp) ∈ ge := by
        have h0 := setKey_cmd_mem w kp kpwd n hne
        rw [hsk] at h0
        exact h0
      cases res <;> simp [hne, hsk, hmem]
  · intro h1 h2
    simp [setKeyPartitionList, hne, h1, h2]
  · intro h1 h2
    simp [setKeyPartitionList, hne, h1, h2]

/-- Keychain world for the C8 witness: the keychain exists, the
private-key name is found, and the grant fails with the unknown-command
diagnostic. -/
def kw8 : KeychainWorld :=
  { fsExists := fun _ => true, listAllOutput := "", listVerifyOutput := "/kc",
    privateKeyName := some "key", randomPwd := "r", setKeyFails := true,
    setKeyErrLines := ["security: unknown command set-key-partition-list"],
    setKeyErrMsg := "exit 1" }

/-- Witness for C8 at the concrete world. -/
theorem C8_partition_grant_witness :
    kw8.privateKeyName = some "key" ∧ "key" ≠ "" ∧
    ((Effect.execCmd "security" (setKeyArgs "key" "pw" "/kc") ∈
        (installCertInTemporaryKeychain kw8 "/kc" "pw" "/p12" "cp" true).1 ↔
      (true && kw8.fsExists "/kc") = true) ∧
    (kw8.setKeyFails = true → unknownCommandFound kw8.setKeyErrLines = true →
      (setKeyPartitionList kw8 "/kc" "pw" "key").2 = Except.ok () ∧
      Effect.logMsg "SetKeyPartitionListCommandNotFound" ∈
        (setKeyPartitionList kw8 "/kc" "pw" "key").1) ∧
    (kw8.setKeyFails = true → unknownCommandFound kw8.setKeyErrLines = false →
      (setKeyPartitionList kw8 "/kc" "pw" "key").2 =
        Except.error "SetKeyPartitionListCommandFailed")) :=
  ⟨rfl, by decide, C8_partition_grant kw8 "/kc" "pw" "/p12" "cp" "key" true rfl (by decide)⟩

/-- A defaulted password equals itself: the null-coalescing step of the
source only replaces an empty value by the empty string. -/
theorem strIfEmpty (s : String) : (if s = "" then "" else s) = s := by
  split <;> simp_all

/-- The import command, with its explicit -P password argument, is
recorded on every path of installCertInTemporaryKeychain. -/
theorem import_cmd_mem (w : KeychainWorld) (kp kpwd p12 ppwd : String) (reuse : Bool) :
    Effect.execCmd "security" (importArgs p12 ppwd kp) ∈
      (installCertInTemporaryKeychain w kp kpwd p12 ppwd reuse).1 := by
  simp only [installCertInTemporaryKeychain, strIfEmpty]
  split
  · split
    · simp
    · split
      · simp
      · simp
  · simp

/-- C7: the import tool always receives the -P argument followed by the
password, which for an empty password is the explicit empty string, never
omitted; and with an empty password getP12Properties succeeds without any
warning when the tools succeed, while a tool failure under an empty
password produces the NoP12PwdWarning warning rather than a
password-specific failure. -/
theorem C7_import_password (w : KeychainWorld) (pw : P12World)
    (kp kpwd p12 ppwd : String) (reuse : Bool) :
    Effect.execCmd "security" (importArgs p12 ppwd kp) ∈
      (installCertInTemporaryKeychain w kp kpwd p12 ppwd reuse).1 ∧
    importArgs p12 "" kp =
      ["import", p12, "-P", "", "-A", "-t", "cert", "-f", "pkcs12", "-k", kp] ∧
    (pw.pkcs12Fails = false → pw.x509Fails = false →
      (∃ props, (getP12Properties pw p12 "").2 = Except.ok props) ∧
      (∀ m, Effect.warn m ∉ (getP12Properties pw p12 "").1) ∧
      (∀ m, Effect.fail m ∉ (getP12Properties pw p12 "").1)) ∧
    (pw.pkcs12Fails = false → pw.x509Fails = true →
      Effect.warn "NoP12PwdWarning" ∈ (getP12Properties pw p12 "").1) := by
  refine ⟨import_cmd_mem w kp kpwd p12 ppwd reuse, rfl, ?_, ?_⟩
  · intro h1 h2
    simp [getP12Properties, h1, h2]
  · intro h1 h2
    simp [getP12Properties, h1, h2]

/-- P12 world for the C7 witness: the x509 step fails. -/
def pw7 : P12World :=
  { pkcs12Fails := false, pkcs12ErrMsg := "", x509Fails := true,
    x509ErrMsg := "exit 1", x509Output := "", parseDate := fun _ => JSDate.invalid }

/-- Witness for C7: an empty password is passed explicitly, and the tool
failure under an empty password yields the warning. -/
theorem C7_import_password_witness :
    pw7.pkcs12Fails = false ∧ pw7.x509Fails = true ∧
    Effect.execCmd "security" (importArgs "/p12" "" "/kc") ∈
      (installCertInTemporaryKeychain kw6a "/kc" "pw" "/p12" "" true).1 ∧
    Effect.warn "NoP12PwdWarning" ∈ (getP12Properties pw7 "/p12" "").1 :=
  ⟨rfl, rfl,
   (C7_import_password kw6a pw7 "/kc" "pw" "/p12" "" true).1,
   (C7_import_password kw6a pw7 "/kc" "pw" "/p12" "" true).2.2.2 rfl rfl⟩

deriving instance DecidableEq for Except

/-- C3 as amended: an absent validity bound always raises the
dates-undefined error; two parsable bounds raise the dates-invalid error
exactly when now lies outside them; but a present, unparsable bound is an
Invalid Date whose comparisons are all false, so it never raises an error
by itself: validation then depends only on the other bound, and passes
silently when both are Invalid Dates. -/
theorem C3_date_validation :
    (∀ (x : Option JSDate) (now : Int),
      dateCheck none x now = some "Certificate dates are invalid or undefined." ∧
      dateCheck x none now = some "Certificate dates are invalid or undefined.") ∧
    (∀ now : Int, dateCheck (some JSDate.invalid) (some JSDate.invalid) now = none) ∧
    (∀ now t : Int, dateCheck (some JSDate.invalid) (some (JSDate.valid t)) now =
      if t < now then some "Certificate dates are invalid." else none) ∧
    (∀ now t : Int, dateCheck (some (JSDate.valid t)) (some JSDate.invalid) now =
      if now < t then some "Certificate dates are invalid." else none) ∧
    (∀ now b a : Int, dateCheck (some (JSDate.valid b)) (some (JSDate.valid a)) now =
      if now < b ∨ a < now then some "Certificate dates are invalid." else none) := by
  refine ⟨?_, ?_, ?_, ?_, ?_⟩
  · intro x now
    cases x <;> simp [dateCheck]
  · intro now
    simp [dateCheck, jsDateGt, jsDateLt]
  · intro now t
    simp [dateCheck, jsDateGt, jsDateLt]
  · intro now t
    simp [dateCheck, jsDateGt, jsDateLt]
  · intro now b a
    simp [dateCheck, jsDateGt, jsDateLt]

/-- P12 world whose notBefore text is present but unparsable. -/
def pw3 : P12World :=
  { pkcs12Fails := false, pkcs12ErrMsg := "", x509Fails := false, x509ErrMsg := "",
    x509Output := "SHA1 Fingerprint=BB:26:83:C6\nsubject=/CN=Dev Cert\nnotBefore=GARBAGE\nnotAfter=D2",
    parseDate := fun s => if s = "D2" then JSDate.valid 300 else JSDate.invalid }

/-- Install world around pw3 in which every later step succeeds. -/
def w3 : InstallWorld :=
  { platformDarwin := true, encodedCert := "QkFTRTY0", keychainInput := "temp",
    keychainPwdInput := "", certPwd := "pw", commonNameOverride := "",
    customKeychainPath := "", writeFileErr := false, base64Fails := false,
    base64ErrMsg := "", p12 := pw3, nowMs := 200, randomPwd := "rnd",
    defaultKeychainOutput := "",
    kw := { fsExists := fun _ => false, listAllOutput := "",
            listVerifyOutput := "/tmp/ios_signing_temp.keychain",
            privateKeyName := none, randomPwd := "rnd", setKeyFails := false,
            setKeyErrLines := [], setKeyErrMsg := "" } }

/-- Counterexample to C3: a certificate whose notBefore text is present
but unparsable yields an Invalid Date, and the installer run completes
with no error at all instead of failing fast with a dates-invalid
error. -/
theorem C3_counterexample :
    (getP12Properties pw3 "/tmp/cert.p12" "pw").2 =
      Except.ok { fingerprint := some "BB2683C6", commonName := some "Dev Cert",
                  notBefore := some JSDate.invalid, notAfter := some (JSDate.valid 300) } ∧
    (installSigningCertTask w3).2 = none := by
  constructor
  · decide
  · decide

/-- getP12Properties never reports a task failure in its trace. -/
theorem no_fail_getP12Properties (pw : P12World) (p pwd m : String) :
    Effect.fail m ∉ (getP12Properties pw p pwd).1 := by
  simp only [getP12Properties]
  split_ifs <;> simp

/-- P12 world with parsable, in-the-past validity dates. -/
def pw5 : P12World :=
  { pkcs12Fails := false, pkcs12ErrMsg := "", x509Fails := false, x509ErrMsg := "",
    x509Output := "SHA1 Fingerprint=BB:26:83:C6\nsubject=/CN=Dev Cert\nnotBefore=D1\nnotAfter=D2",
    parseDate := fun s => if s = "D1" then JSDate.valid 100
      else if s = "D2" then JSDate.valid 300 else JSDate.invalid }

/-- Install world around pw5 whose current time lies after notAfter. -/
def w5 : InstallWorld :=
  { platformDarwin := true, encodedCert := "QkFTRTY0", keychainInput := "temp",
    keychainPwdInput := "", certPwd := "pw", commonNameOverride := "",
    customKeychainPath := "", writeFileErr := false, base64Fails := false,
    base64ErrMsg := "", p12 := pw5, nowMs := 400, randomPwd := "rnd",
    defaultKeychainOutput := "",
    kw := { fsExists := fun _ => false, listAllOutput := "",
            listVerifyOutput := "/tmp/ios_signing_temp.keychain",
            privateKeyName := none, randomPwd := "rnd", setKeyFails := false,
            setKeyErrLines := [], setKeyErrMsg := "" } }

/-- Counterexample to C5: a run that fails date validation has already
exported APPLE_CERTIFICATE_SHA1HASH and signingIdentity, and the task is
not even marked failed (the error escapes the callback unhandled). -/
theorem C5_counterexample :
    (installSigningCertTask w5).2 = some "Certificate dates are invalid." ∧
    Effect.exportVar "APPLE_CERTIFICATE_SHA1HASH" "BB2683C6" ∈ (installSigningCertTask w5).1 ∧
    Effect.exportVar "signingIdentity" "Dev Cert" ∈ (installSigningCertTask w5).1 ∧
    Effect.fail "Certificate dates are invalid." ∉ (installSigningCertTask w5).1 := by
  refine ⟨by decide, by decide, by decide, by decide⟩

/-- C5 as amended: a run that reaches date validation and fails there has
already exported APPLE_CERTIFICATE_SHA1HASH and signingIdentity; the
unhandled error is the validation message, and no task-failed report is
emitted on this path. -/
theorem C5_failed_run_exports (w : InstallWorld) (pEff : List Effect) (props : P12Props) (m : String)
    (hplat : w.platformDarwin = true) (hkc : ¬w.keychainInput = "") (hcp : ¬w.certPwd = "")
    (henc : ¬w.encodedCert = "") (hwr : w.writeFileErr = false) (hb64 : w.base64Fails = false)
    (hp12 : getP12Properties w.p12 "/tmp/cert.p12" w.certPwd = (pEff, Except.ok props))
    (hfp : jsFalsyOpt props.fingerprint = false)
    (hcn : jsFalsyOpt (if w.commonNameOverride ≠ "" then some w.commonNameOverride
      else props.commonName) = false)
    (hdate : dateCheck props.notBefore props.notAfter w.nowMs = some m) :
    (installSigningCertTask w).2 = some m ∧
    Effect.exportVar "APPLE_CERTIFICATE_SHA1HASH" (optStr props.fingerprint) ∈
      (installSigningCertTask w).1 ∧
    Effect.exportVar "signingIdentity"
      (optStr (if w.commonNameOverride ≠ "" then some w.commonNameOverride
        else props.commonName)) ∈ (installSigningCertTask w).1 ∧
    ∀ s, Effect.fail s ∉ (installSigningCertTask w).1 := by
  have hrun : installSigningCertTask w = installCallback w := by
    simp [installSigningCertTask, hplat, hkc, hcp, henc]
  have hcb : installCallback w =
      ([Effect.execCmd "base64" ["-d", "-i", "/tmp/cert.base64", "-o", "/tmp/cert.p12"],
        Effect.rm "/tmp/cert.base64"] ++ pEff ++
       [Effect.exportVar "APPLE_CERTIFICATE_SHA1HASH" (optStr props.fingerprint),
        Effect.exportVar "signingIdentity"
          (optStr (if w.commonNameOverride ≠ "" then some w.commonNameOverride
            else props.commonName))], some m) := by
    simp only [installCallback, hwr, hb64, hp12, hfp, hcn, hdate]
    simp
  rw [hrun, hcb]
  refine ⟨rfl, by simp, by simp, ?_⟩
  intro s
  simp
  have := no_fail_getP12Properties w.p12 "/tmp/cert.p12" w.certPwd s
  rw [hp12] at this
  exact this

/-- The openssl trace of getP12Properties in the world w5. -/
def p12EffW5 : List Effect :=
  [Effect.execCmd "openssl"
     ["pkcs12", "-in", "/tmp/cert.p12", "-out", "/tmp/step1.openssl", "-nokeys",
      "-passin", "pass:pw"],
   Effect.execCmd "openssl"
     ["x509", "-in", "/tmp/step1.openssl", "-noout", "-fingerprint",
      "-subject", "-dates"]]

/-- The parsed certificate properties in the world w5. -/
def propsW5 : P12Props :=
  { fingerprint := some "BB2683C6", commonName := some "Dev Cert",
    notBefore := some (JSDate.valid 100), notAfter := some (JSDate.valid 300) }

/-- Witness for C5 at the concrete world w5. -/
theorem C5_exports_witness :
    getP12Properties w5.p12 "/tmp/cert.p12" w5.certPwd = (p12EffW5, Except.ok propsW5) ∧
    (installSigningCertTask w5).2 = some "Certificate dates are invalid." ∧
    (∀ s, Effect.fail s ∉ (installSigningCertTask w5).1) :=
  ⟨by decide,
   (C5_failed_run_exports w5 p12EffW5 propsW5 "Certificate dates are invalid."
     rfl (by decide) (by decide) (by decide) rfl rfl (by decide) (by decide)
     (by decide) (by decide)).1,
   (C5_failed_run_exports w5 p12EffW5 propsW5 "Certificate dates are invalid."
     rfl (by decide) (by decide) (by decide) rfl rfl (by decide) (by decide)
     (by decide) (by decide)).2.2.2⟩

/-- getP12Properties performs no file removal. -/
theorem no_rm_getP12Properties (pw : P12World) (p pwd q : String) :
    Effect.rm q ∉ (getP12Properties pw p pwd).1 := by
  simp only [getP12Properties]
  split_ifs <;> simp

theorem no_rm_resolveKeychain (w : InstallWorld) (q : String) :
    Effect.rm q ∉ (resolveKeychain w).1 := by
  simp only [resolveKeychain, getDefaultKeychainPath]
  split_ifs <;> simp

theorem no_rm_getP12PrivateKeyName (w : KeychainWorld) (p pwd q : String) :
    Effect.rm q ∉ (getP12PrivateKeyName w p pwd).1 := by
  simp only [getP12PrivateKeyName]
  simp

theorem no_rm_setKeyPartitionList (w : KeychainWorld) (kp kpwd n q : String) :
    Effect.rm q ∉ (setKeyPartitionList w kp kpwd n).1 := by
  simp only [setKeyPartitionList]
  split_ifs <;> simp

theorem no_rm_searchPathPhase (w : KeychainWorld) (kp q : String) :
    Effect.rm q ∉ (searchPathPhase w kp).1 := by
  simp only [searchPathPhase]
  split_ifs <;> simp

theorem no_rm_ensurePhase (w : KeychainWorld) (kp kpwd q : String) (reuse : Bool) :
    Effect.rm q ∉ ensurePhase w kp kpwd reuse := by
  simp only [ensurePhase, deleteKeychain]
  split_ifs <;> simp

theorem no_rm_installCert (w : KeychainWorld) (kp kpwd p12 ppwd q : String) (reuse : Bool) :
    Effect.rm q ∉ (installCertInTemporaryKeychain w kp kpwd p12 ppwd reuse).1 := by
  simp only [installCertInTemporaryKeychain]
  split
  · rcases hkey : getP12PrivateKeyName w p12 (if ppwd = "" then "" else ppwd) with ⟨keyEff, keyRes⟩
    have hk : Effect.rm q ∉ keyEff := by
      have h0 := no_rm_getP12PrivateKeyName w p12 (if ppwd = "" then "" else ppwd) q
      rw [hkey] at h0
      exact h0
    cases keyRes with
    | error e => simp [no_rm_ensurePhase, hk]
    | ok name =>
      rcases hsk : setKeyPartitionList w kp kpwd name with ⟨ge, res⟩
      have hg : Effect.rm q ∉ ge := by
        have h0 := no_rm_setKeyPartitionList w kp kpwd name q
        rw [hsk] at h0
        exact h0
      cases res <;> simp [hsk, no_rm_ensurePhase, no_rm_searchPathPhase, hk, hg]
  · simp [no_rm_ensurePhase, no_rm_searchPathPhase]

/-- Branch analysis of the writeFile callback: a failing callback never
removes the decoded PKCS number 12 scratch file, and a successful
callback without a write error removes both scratch files at its end. -/
theorem callback_cleanup (w : InstallWorld) :
    ((installCallback w).2 ≠ none → Effect.rm "/tmp/cert.p12" ∉ (installCallback w).1) ∧
    ((installCallback w).2 = none → w.writeFileErr = false →
      Effect.rm "/tmp/cert.base64" ∈ (installCallback w).1 ∧
      Effect.rm "/tmp/cert.p12" ∈ (installCallback w).1) := by
  simp only [installCallback]
  split
  · rename_i hw
    constructor
    · intro h
      exact absurd rfl h
    · intro _ hwr
      rw [hw] at hwr
      exact absurd hwr (by simp)
  · split
    · constructor
      · intro _
        simp
      · intro h _
        exact absurd h (by simp)
    · rcases hp : getP12Properties w.p12 "/tmp/cert.p12" w.certPwd with ⟨pe, pres⟩
      have hpe : Effect.rm "/tmp/cert.p12" ∉ pe := by
        have h0 := no_rm_getP12Properties w.p12 "/tmp/cert.p12" w.certPwd "/tmp/cert.p12"
        rw [hp] at h0
        exact h0
      cases pres with
      | error err =>
        constructor
        · intro _
          simp [hpe]
        · intro h _
          exact absurd h (by simp)
      | ok props =>
        dsimp only
        by_cases hf : (jsFalsyOpt props.fingerprint ||
            jsFalsyOpt (if w.commonNameOverride ≠ "" then some w.commonNameOverride
              else props.commonName)) = true
        · rw [if_pos hf]
          constructor
          · intro _
            simp [hpe]
          · intro h _
            exact absurd h (by simp)
        · rw [if_neg hf]
          rcases hd : dateCheck props.notBefore props.notAfter w.nowMs with _ | m
          · rcases hk : resolveKeychain w with ⟨ke, kres⟩
            have hke : Effect.rm "/tmp/cert.p12" ∉ ke := by
              have h0 := no_rm_resolveKeychain w "/tmp/cert.p12"
              rw [hk] at h0
              exact h0
            cases kres with
            | error e =>
              dsimp only
              constructor
              · intro _
                simp [hpe, hke]
              · intro h _
                exact absurd h (by simp)
            | ok kc =>
              dsimp only
              rcases hi : installCertInTemporaryKeychain w.kw kc.1 kc.2 "/tmp/cert.p12" w.certPwd true with ⟨ie, ires⟩
              have hie : Effect.rm "/tmp/cert.p12" ∉ ie := by
                have h0 := no_rm_installCert w.kw kc.1 kc.2 "/tmp/cert.p12" w.certPwd "/tmp/cert.p12" true
                rw [hi] at h0
                exact h0
              cases ires with
              | error e =>
                dsimp only
                constructor
                · intro _
                  simp [hpe, hke, hie]
                · intro h _
                  exact absurd h (by simp)
              | ok u =>
                dsimp only
                constructor
                · intro h
                  exact absurd rfl h
                · intro _ _
                  simp
          · dsimp only
            constructor
            · intro _
              simp [hpe]
            · intro h _
              exact absurd h (by simp)

/-- P12 world whose x509 inspection fails. -/
def pw2 : P12World :=
  { pkcs12Fails := false, pkcs12ErrMsg := "", x509Fails := true,
    x509ErrMsg := "openssl exited 1", x509Output := "",
    parseDate := fun _ => JSDate.invalid }

/-- Install world around pw2: the run fails during the property query. -/
def w2 : InstallWorld :=
  { platformDarwin := true, encodedCert := "QkFTRTY0", keychainInput := "temp",
    keychainPwdInput := "", certPwd := "pw", commonNameOverride := "",
    customKeychainPath := "", writeFileErr := false, base64Fails := false,
    base64ErrMsg := "", p12 := pw2, nowMs := 200, randomPwd := "rnd",
    defaultKeychainOutput := "",
    kw := { fsExists := fun _ => false, listAllOutput := "",
            listVerifyOutput := "/tmp/ios_signing_temp.keychain",
            privateKeyName := none, randomPwd := "rnd", setKeyFails := false,
            setKeyErrLines := [], setKeyErrMsg := "" } }

/-- Counterexample to C2: a run whose property query fails removes the
BASE64 scratch file (that removal happens right after decoding) but never
removes the decoded PKCS number 12 file: no cleanup phase runs on
failure. -/
theorem C2_counterexample :
    (installSigningCertTask w2).2 = some "openssl exited 1" ∧
    Effect.rm "/tmp/cert.base64" ∈ (installSigningCertTask w2).1 ∧
    Effect.rm "/tmp/cert.p12" ∉ (installSigningCertTask w2).1 := by
  refine ⟨by decide, by decide, by decide⟩

/-- C2 as amended: both scratch files are removed only at the end of a
run in which every step succeeds; on every failing run the decoded PKCS
number 12 scratch file is never removed (the final cleanup phase of the
TypeScript source is empty). -/
theorem C2_cleanup_on_success_only (w : InstallWorld) :
    ((installSigningCertTask w).2 ≠ none →
      Effect.rm "/tmp/cert.p12" ∉ (installSigningCertTask w).1) ∧
    ((installSigningCertTask w).2 = none → w.encodedCert ≠ "" → w.writeFileErr = false →
      Effect.rm "/tmp/cert.base64" ∈ (installSigningCertTask w).1 ∧
      Effect.rm "/tmp/cert.p12" ∈ (installSigningCertTask w).1) := by
  simp only [installSigningCertTask]
  split
  · constructor
    · intro _
      simp
    · intro h _ _
      exact absurd h (by simp)
  · split
    · constructor
      · intro _
        simp
      · intro h _ _
        exact absurd h (by simp)
    · split
      · constructor
        · intro _
          simp
        · intro h _ _
          exact absurd h (by simp)
      · split
        · constructor
          · exact (callback_cleanup w).1
          · intro h _ hwr
            exact (callback_cleanup w).2 h hwr
        · rename_i henc
          constructor
          · intro h
            exact absurd rfl h
          · intro _ he _
            exact absurd he (by simpa using henc)

/-- Install world in which every step succeeds, for the C2 witness. -/
def w2ok : InstallWorld :=
  { platformDarwin := true, encodedCert := "QkFTRTY0", keychainInput := "temp",
    keychainPwdInput := "", certPwd := "pw", commonNameOverride := "",
    customKeychainPath := "", writeFileErr := false, base64Fails := false,
    base64ErrMsg := "",
    p12 := { pkcs12Fails := false, pkcs12ErrMsg := "", x509Fails := false,
             x509ErrMsg := "",
             x509Output := "SHA1 Fingerprint=BB:26:83:C6\nsubject=/CN=Dev Cert\nnotBefore=D1\nnotAfter=D2",
             parseDate := fun s => if s = "D1" then JSDate.valid 100
               else if s = "D2" then JSDate.valid 300 else JSDate.invalid },
    nowMs := 200, randomPwd := "rnd", defaultKeychainOutput := "",
    kw := { fsExists := fun _ => false, listAllOutput := "",
            listVerifyOutput := "/tmp/ios_signing_temp.keychain",
            privateKeyName := none, randomPwd := "rnd", setKeyFails := false,
            setKeyErrLines := [], setKeyErrMsg := "" } }

/-- Witness for C2 at the concrete successful world. -/
theorem C2_cleanup_witness :
    (installSigningCertTask w2ok).2 = none ∧ w2ok.encodedCert ≠ "" ∧
    w2ok.writeFileErr = false ∧
    Effect.rm "/tmp/cert.base64" ∈ (installSigningCertTask w2ok).1 ∧
    Effect.rm "/tmp/cert.p12" ∈ (installSigningCertTask w2ok).1 :=
  ⟨by decide, by decide, rfl,
   ((C2_cleanup_on_success_only w2ok).2 (by decide) (by decide) rfl).1,
   ((C2_cleanup_on_success_only w2ok).2 (by decide) (by decide) rfl).2⟩
